import Mathlib

namespace AzdoTools

structure Ymd where
  year : Int
  month : Int
  day : Int
deriving DecidableEq, Repr

/-- Gregorian leap-year rule (as in Python `calendar.isleap` / `datetime`). -/
abbrev IsLeap (y : Int) : Prop := y % 4 = 0 ∧ (¬ y % 100 = 0 ∨ y % 400 = 0)

def daysInMonth (y m : Int) : Int :=
  if m = 2 then (if IsLeap y then 29 else 28)
  else if m = 4 ∨ m = 6 ∨ m = 9 ∨ m = 11 then 30 else 31

def validYmd (d : Ymd) : Prop :=
  1 ≤ d.month ∧ d.month ≤ 12 ∧ 1 ≤ d.day ∧ d.day ≤ daysInMonth d.year d.month

instance : DecidablePred validYmd := fun d => by unfold validYmd; infer_instance

/-- Day-of-year offset of the first day of month `m` in year `y` (0 for January). -/
def daysBeforeMonth (y m : Int) : Int :=
  (367 * m - 362) / 12 + (if m ≤ 2 then 0 else if IsLeap y then -1 else -2)

/-- Proleptic-Gregorian ordinal of a date, with 0001-01-01 ↦ 1
(the convention of Python `date.toordinal`). -/
def toOrd (d : Ymd) : Int :=
  365 * (d.year - 1) + (d.year - 1) / 4 - (d.year - 1) / 100 + (d.year - 1) / 400 +
    daysBeforeMonth d.year d.month + d.day

/-- Date in year `y` from a 0-based day-of-year offset, where `L` is 1 in a
leap year and 0 otherwise. -/
def ymdFromDoyL (y doy L : Int) : Ymd :=
  if doy < 120 + L then
    if doy < 59 + L then
      if doy < 31 then ⟨y, 1, doy + 1⟩ else ⟨y, 2, doy - 30⟩
    else
      if doy < 90 + L then ⟨y, 3, doy - 58 - L⟩ else ⟨y, 4, doy - 89 - L⟩
  else if doy < 243 + L then
    if doy < 181 + L then
      if doy < 151 + L then ⟨y, 5, doy - 119 - L⟩ else ⟨y, 6, doy - 150 - L⟩
    else
      if doy < 212 + L then ⟨y, 7, doy - 180 - L⟩ else ⟨y, 8, doy - 211 - L⟩
  else if doy < 304 + L then
    if doy < 273 + L then ⟨y, 9, doy - 242 - L⟩ else ⟨y, 10, doy - 272 - L⟩
  else
    if doy < 334 + L then ⟨y, 11, doy - 303 - L⟩ else ⟨y, 12, doy - 333 - L⟩

def ymdFromDoy (y doy : Int) : Ymd :=
  ymdFromDoyL y doy (if IsLeap y then 1 else 0)

/-- Date from a proleptic-Gregorian ordinal (the CPython `_ord2ymd` cascade). -/
def ofOrd (z : Int) : Ymd :=
  let n := z - 1
  let n400 := n / 146097
  let r1 := n % 146097
  let n100 := r1 / 36524
  let r2 := r1 % 36524
  let n4 := r2 / 1461
  let r3 := r2 % 1461
  let n1 := r3 / 365
  let doy := r3 % 365
  if n1 = 4 ∨ n100 = 4 then
    ⟨n400 * 400 + n100 * 100 + n4 * 4 + n1, 12, 31⟩
  else
    ymdFromDoy (n400 * 400 + n100 * 100 + n4 * 4 + n1 + 1) doy


theorem toOrd_ymdFromDoyL (y doy L : Int)
    (h : (IsLeap y ∧ L = 1) ∨ (¬ IsLeap y ∧ L = 0)) :
    toOrd (ymdFromDoyL y doy L) =
      365 * (y - 1) + (y - 1) / 4 - (y - 1) / 100 + (y - 1) / 400 + 1 + doy := by
  rw [ymdFromDoyL]
  split_ifs <;>
    · simp only [toOrd, daysBeforeMonth]
      split_ifs <;> omega

theorem ymdFromDoyL_valid (y doy L : Int)
    (h : (IsLeap y ∧ L = 1) ∨ (¬ IsLeap y ∧ L = 0))
    (h0 : 0 ≤ doy) (h1 : doy ≤ 364 + L) :
    validYmd (ymdFromDoyL y doy L) := by
  rw [ymdFromDoyL]
  split_ifs <;>
    · simp only [validYmd, daysInMonth]
      split_ifs <;> omega

theorem leapSplit (y : Int) :
    (IsLeap y ∧ (if IsLeap y then (1 : Int) else 0) = 1) ∨
    (¬ IsLeap y ∧ (if IsLeap y then (1 : Int) else 0) = 0) := by
  by_cases h : IsLeap y
  · exact Or.inl ⟨h, if_pos h⟩
  · exact Or.inr ⟨h, if_neg h⟩

theorem quotients (b c d e : Int) (hc0 : 0 ≤ c) (hc : c ≤ 3) (hd0 : 0 ≤ d) (hd : d ≤ 24)
    (he0 : 0 ≤ e) (he : e ≤ 3) :
    (b * 400 + c * 100 + d * 4 + e) / 4 = b * 100 + c * 25 + d ∧
    (b * 400 + c * 100 + d * 4 + e) / 100 = b * 4 + c ∧
    (b * 400 + c * 100 + d * 4 + e) / 400 = b := by
  omega

theorem toOrd_ofOrd (z : Int) : toOrd (ofOrd z) = z := by
  simp only [ofOrd]
  have hc0 : 0 ≤ (z - 1) % 146097 / 36524 := by omega
  have hd0 : 0 ≤ (z - 1) % 146097 % 36524 / 1461 := by omega
  have hd : (z - 1) % 146097 % 36524 / 1461 ≤ 24 := by omega
  have he0 : 0 ≤ (z - 1) % 146097 % 36524 % 1461 / 365 := by omega
  split
  · next h =>
    rcases h with h1 | h1
    · have hr3 : (z - 1) % 146097 % 36524 % 1461 = 1460 := by omega
      have hc : (z - 1) % 146097 / 36524 ≤ 3 := by omega
      have hd23 : (z - 1) % 146097 % 36524 / 1461 ≤ 23 := by omega
      rw [h1]
      have harg : (z - 1) / 146097 * 400 + (z - 1) % 146097 / 36524 * 100 +
          (z - 1) % 146097 % 36524 / 1461 * 4 + 4 - 1 =
          (z - 1) / 146097 * 400 + (z - 1) % 146097 / 36524 * 100 +
          (z - 1) % 146097 % 36524 / 1461 * 4 + 3 := by ring
      have hq := quotients ((z - 1) / 146097) ((z - 1) % 146097 / 36524)
        ((z - 1) % 146097 % 36524 / 1461) 3 hc0 hc hd0 hd (by omega) (by omega)
      simp only [toOrd, daysBeforeMonth]
      rw [harg]
      split_ifs <;> omega
    · have hr1 : (z - 1) % 146097 = 146096 := by omega
      have hn100 : (z - 1) % 146097 / 36524 = 4 := by omega
      have hn4 : (z - 1) % 146097 % 36524 / 1461 = 0 := by omega
      have hn1 : (z - 1) % 146097 % 36524 % 1461 / 365 = 0 := by omega
      rw [hn100, hn4, hn1]
      have harg : (z - 1) / 146097 * 400 + 4 * 100 + 0 * 4 + 0 - 1 =
          (z - 1) / 146097 * 400 + 3 * 100 + 24 * 4 + 3 := by ring
      have hq := quotients ((z - 1) / 146097) 3 24 3 (by omega) (by omega) (by omega)
        (by omega) (by omega) (by omega)
      simp only [toOrd, daysBeforeMonth]
      rw [harg]
      split_ifs <;> omega
  · next h =>
    rw [ymdFromDoy, toOrd_ymdFromDoyL _ _ _ (leapSplit _)]
    have hc : (z - 1) % 146097 / 36524 ≤ 3 := by omega
    have he : (z - 1) % 146097 % 36524 % 1461 / 365 ≤ 3 := by omega
    have harg : (z - 1) / 146097 * 400 + (z - 1) % 146097 / 36524 * 100 +
        (z - 1) % 146097 % 36524 / 1461 * 4 + (z - 1) % 146097 % 36524 % 1461 / 365 + 1 - 1 =
        (z - 1) / 146097 * 400 + (z - 1) % 146097 / 36524 * 100 +
        (z - 1) % 146097 % 36524 / 1461 * 4 + (z - 1) % 146097 % 36524 % 1461 / 365 := by ring
    rw [harg]
    have hq := quotients ((z - 1) / 146097) ((z - 1) % 146097 / 36524)
      ((z - 1) % 146097 % 36524 / 1461) ((z - 1) % 146097 % 36524 % 1461 / 365)
      hc0 hc hd0 hd he0 he
    omega

theorem ofOrd_valid (z : Int) : validYmd (ofOrd z) := by
  simp only [ofOrd]
  split
  · next h =>
    simp only [validYmd, daysInMonth]
    norm_num
  · next h =>
    rw [ymdFromDoy]
    exact ymdFromDoyL_valid _ _ _ (leapSplit _) (by omega) (by split_ifs <;> omega)

/-! ### Python runtime primitives used by `_parse_date_filter` -/

/-- Exceptions that the modelled Python code can raise. -/
inductive PyErr where
  | valueError
  | overflowError
  | attributeError
deriving DecidableEq, Repr

deriving instance DecidableEq for Except

/-- Smallest ordinal representable by Python `datetime` (0001-01-01). -/
def minOrd : Int := 1

/-- Largest ordinal representable by Python `datetime` (9999-12-31). -/
def maxOrd : Int := 3652059

/-- `d - timedelta(days = k)`; Python raises `OverflowError` when the result
falls outside the `datetime` range. -/
def pySubDays (d : Ymd) (k : Int) : Except PyErr Ymd :=
  let o := toOrd d - k
  if minOrd ≤ o ∧ o ≤ maxOrd then .ok (ofOrd o) else .error .overflowError

/-- `d.replace(year = ..., month = ..., day = ...)` with `none` meaning "keep the
current value"; Python raises `ValueError` when the combination is not a valid
date (notably `day is out of range for month`). -/
def pyReplace (d : Ymd) (y m dd : Option Int) : Except PyErr Ymd :=
  let y' := y.getD d.year
  let m' := m.getD d.month
  let d' := dd.getD d.day
  if 1 ≤ y' ∧ y' ≤ 9999 ∧ 1 ≤ m' ∧ m' ≤ 12 ∧ 1 ≤ d' ∧ d' ≤ daysInMonth y' m' then
    .ok ⟨y', m', d'⟩
  else .error .valueError

/-- `d.weekday()`: days since Monday, so Monday ↦ 0 (0001-01-01 was a Monday). -/
def pyWeekday (d : Ymd) : Int := (toOrd d - 1) % 7

/-- ASCII whitespace as recognized by Python `str.strip` and regex `\s`. -/
def isPyWs (c : Char) : Bool :=
  c = ' ' ∨ c = '\t' ∨ c = '\n' ∨ c = '\x0d' ∨ c = '\x0b' ∨ c = '\x0c'

/-- Python `str.strip()`: drop leading and trailing whitespace. -/
def pyStrip (l : List Char) : List Char :=
  ((l.dropWhile isPyWs).reverse.dropWhile isPyWs).reverse

/-- Python `str.lower()` composed over the characters (ASCII case fold). -/
def pyLower (l : List Char) : List Char := l.map Char.toLower

/-- `int(...)` on a non-empty string of ASCII digits. -/
def digitsToNat (l : List Char) : Nat :=
  l.foldl (fun a c => a * 10 + (c.toNat - 48)) 0

/-! ### Regex fragments of `_parse_date_filter`, compiled by hand -/

/-- `re.match(r'(\d{4}-\d{2}-\d{2})', l)`: an anchored `YYYY-MM-DD` shape at the
start of the string; returns the 10-character capture. No calendar validation. -/
def matchYMD : List Char → Option (List Char)
  | a :: b :: c :: d :: h1 :: e :: f :: h2 :: g :: i :: _ =>
    if a.isDigit ∧ b.isDigit ∧ c.isDigit ∧ d.isDigit ∧ h1 = '-' ∧
       e.isDigit ∧ f.isDigit ∧ h2 = '-' ∧ g.isDigit ∧ i.isDigit then
      some [a, b, c, d, h1, e, f, h2, g, i]
    else none
  | _ => none

/-- Regex `\s+`: at least one whitespace character, consumed greedily. -/
def matchWsPlus : List Char → Option (List Char)
  | c :: r => if isPyWs c then some (r.dropWhile isPyWs) else none
  | [] => none

/-- `re.match(r'(\d{4}-\d{2}-\d{2})\s+to\s+(\d{4}-\d{2}-\d{2})', l)`:
both captures of the anchored explicit-range pattern. -/
def matchRange (l : List Char) : Option (List Char × List Char) :=
  match matchYMD l with
  | none => none
  | some d1 =>
    match matchWsPlus (l.drop 10) with
    | none => none
    | some r1 =>
      if ("to".data).isPrefixOf r1 then
        match matchWsPlus (r1.drop 2) with
        | none => none
        | some r2 =>
          match matchYMD r2 with
          | none => none
          | some d2 => some (d1, d2)
      else none

/-- `re.match(r'last (\d+) <unit>...', l)`: the keyword `last `, an integer, then
the unit prefix (e.g. `" day"` — the optional plural `s` and any trailing text
are unconstrained by the original patterns). Returns the parsed integer. -/
def matchLastN (unit : List Char) (l : List Char) : Option Nat :=
  if ("last ".data).isPrefixOf l then
    let rest := l.drop 5
    let digits := rest.takeWhile Char.isDigit
    if digits ≠ [] ∧ unit.isPrefixOf (rest.drop digits.length) then
      some (digitsToNat digits)
    else none
  else none

/-- `re.match(r'<key>\s+(\d{4}-\d{2}-\d{2})', l)` for `key` ∈ {`since`, `before`}:
the keyword, whitespace, then the date capture. -/
def matchKeyDate (key : List Char) (l : List Char) : Option (List Char) :=
  if key.isPrefixOf l then
    match matchWsPlus (l.drop key.length) with
    | none => none
    | some r => matchYMD r
  else none

/-! ### Date formatting (`strftime('%Y-%m-%d')`) -/

def digitChar (n : Int) : Char := Char.ofNat (48 + n.toNat)

/-- Two-digit zero-padded field (`%m`, `%d`). -/
def fmt2 (n : Int) : List Char := [digitChar (n / 10 % 10), digitChar (n % 10)]

/-- Four-digit zero-padded field (`%Y` over the `datetime` year range). -/
def fmt4 (n : Int) : List Char :=
  [digitChar (n / 1000 % 10), digitChar (n / 100 % 10), digitChar (n / 10 % 10),
   digitChar (n % 10)]

/-- `d.strftime('%Y-%m-%d')`. -/
def fmtYmd (d : Ymd) : List Char :=
  fmt4 d.year ++ '-' :: (fmt2 d.month ++ '-' :: fmt2 d.day)

/-! ### The `last N months` while-loop -/

/-- One fuelled unrolling of the year-carrying loop of the `last N months`
branch; the fuel is a strict upper bound on the number of iterations, so the
fuelled function implements the unbounded loop exactly. -/
def monthAdjustFuel : Nat → Int → Int → Int × Int
  | 0, y, m => (y, m)
  | Nat.succ f, y, m => if m ≤ 0 then monthAdjustFuel f (y - 1) (m + 12) else (y, m)

/-- The year-carrying loop of the `last N months` branch:
`while month <= 0: month += 12; year -= 1`. -/
def monthAdjust (y m : Int) : Int × Int := monthAdjustFuel (1 - m).toNat y m

/-! ### `_parse_date_filter` (`azdo_tools.py`) -/

/-- The eight exact-keyword branches of `_parse_date_filter`; `today` is the
value read from the process clock (`datetime.now()` truncated to midnight),
made an explicit argument of the model. Returns `none` when no keyword
matches. -/
def kwBranch (df : List Char) (today : Ymd) :
    Option (Except PyErr (List Char × List Char)) :=
  if df = "today".data then
    some (.ok (fmtYmd today, fmtYmd today))
  else if df = "yesterday".data then
    some (do
      let y ← pySubDays today 1
      .ok (fmtYmd y, fmtYmd y))
  else if df = "this week".data then
    some (do
      let s ← pySubDays today (pyWeekday today)
      .ok (fmtYmd s, fmtYmd today))
  else if df = "last week".data then
    some (do
      let e ← pySubDays today (pyWeekday today + 1)
      let s ← pySubDays e 6
      .ok (fmtYmd s, fmtYmd e))
  else if df = "this month".data then
    some (do
      let s ← pyReplace today none none (some 1)
      .ok (fmtYmd s, fmtYmd today))
  else if df = "last month".data then
    some (do
      let f ← pyReplace today none none (some 1)
      let e ← pySubDays f 1
      let s ← pyReplace e none none (some 1)
      .ok (fmtYmd s, fmtYmd e))
  else if df = "this year".data then
    some (do
      let s ← pyReplace today none (some 1) (some 1)
      .ok (fmtYmd s, fmtYmd today))
  else if df = "last year".data then
    some (do
      let s ← pyReplace today (some (today.year - 1)) (some 1) (some 1)
      let e ← pyReplace today (some (today.year - 1)) (some 12) (some 31)
      .ok (fmtYmd s, fmtYmd e))
  else none

/-- The regex-driven branches of `_parse_date_filter`, in source order:
`last N days/weeks/months`, explicit range, explicit date, `since`, `before`.
Returns `none` when none of the patterns matches. -/
def reBranch (df : List Char) (today : Ymd) :
    Option (Except PyErr (List Char × List Char)) :=
  match matchLastN " day".data df with
  | some n => some (do
      let f ← pySubDays today (n : Int)
      .ok (fmtYmd f, fmtYmd today))
  | none =>
  match matchLastN " week".data df with
  | some n => some (do
      let f ← pySubDays today (7 * (n : Int))
      .ok (fmtYmd f, fmtYmd today))
  | none =>
  match matchLastN " month".data df with
  | some n => some (do
      let ym := monthAdjust today.year (today.month - (n : Int))
      let f ← pyReplace today (some ym.1) (some ym.2) none
      .ok (fmtYmd f, fmtYmd today))
  | none =>
  match matchRange df with
  | some (a, b) => some (.ok (a, b))
  | none =>
  match matchYMD df with
  | some p => some (.ok (p, p))
  | none =>
  match matchKeyDate "since".data df with
  | some p => some (.ok (p, fmtYmd today))
  | none =>
  match matchKeyDate "before".data df with
  | some p => some (do
      let f ← pySubDays today 365
      .ok (fmtYmd f, p))
  | none => none

/-- `AzureDevOpsTool._parse_date_filter` (`azdo_tools.py`, lines 41–147).
`dateFilter` is the expression; `today` is the process-clock value
(`datetime.now()` with the time fields zeroed) passed explicitly.
Returns the `(from_date, to_date)` pair, or the Python exception raised. -/
def parseDateFilter (dateFilter : List Char) (today : Ymd) :
    Except PyErr (List Char × List Char) :=
  let df := pyStrip (pyLower dateFilter)
  match kwBranch df today with
  | some r => r
  | none =>
  match reBranch df today with
  | some r => r
  | none => do
    let f ← pySubDays today 30
    .ok (fmtYmd f, fmtYmd today)


/-! ### Work-item records (Python dict/JSON values) -/

/-- The fragment of Python values that flows through `_filter_by_date`:
strings, (nested) dictionaries, and `None`. -/
inductive Value where
  | vStr : List Char → Value
  | vDict : List (List Char × Value) → Value
  | vNull : Value

/-- Python truthiness for a `Value` (`if not item_date_str`): `None`, the empty
string and the empty dict are falsy. -/
def Value.falsy : Value → Bool
  | .vNull => true
  | .vStr s => s.isEmpty
  | .vDict d => d.isEmpty

/-- `d[k]` lookup in a dict rendered as an association list. -/
def dictGet : List (List Char × Value) → List Char → Option Value
  | [], _ => none
  | (k, v) :: r, key => if k = key then some v else dictGet r key

/-- Python `str.split('.')`. -/
def splitDot : List Char → List (List Char)
  | [] => [[]]
  | c :: r =>
    if c = '.' then [] :: splitDot r
    else
      match splitDot r with
      | h :: t => (c :: h) :: t
      | [] => [[c]]

/-- The dotted-path walk of `_filter_by_date` (lines 169–178): follow each part
through nested dicts; any miss or non-dict sets the value to `None` and stops. -/
def walkPath : Value → List (List Char) → Value
  | v, [] => v
  | v, p :: ps =>
    match v with
    | .vDict d =>
      match dictGet d p with
      | some w => walkPath w ps
      | none => .vNull
    | _ => .vNull

/-! ### `_filter_by_date` (`azdo_tools.py`, lines 149–204) -/

/-- `item.get(field)` on a plain (undotted) field: an `AttributeError` if the
item is not a dict — this sits outside the `try` of the loop. -/
def itemGet : Value → List Char → Except PyErr Value
  | .vDict d, field => .ok ((dictGet d field).getD .vNull)
  | _, _ => .error .attributeError

/-- The extraction step for one item: dotted fields walk nested dicts; a plain
field uses `item.get(...)`. -/
def extractField (dateField : List Char) (item : Value) : Except PyErr Value :=
  if '.' ∈ dateField then
    .ok (walkPath item (splitDot dateField))
  else
    itemGet item dateField

/-- The per-item body of the `_filter_by_date` loop. `dateParse` is the
`dateutil.parser.parse` collaborator, abstracted as a partial map to a point
on the time line; `none` models a raised parse exception, which the bare
`except` of the loop turns into skipping the item. Returns whether the item is
appended to the filtered list. -/
def keepItem (dateParse : List Char → Option Int) (dateField : List Char)
    (fromD toD : List Char) (item : Value) : Except PyErr Bool := do
  let v ← extractField dateField item
  if v.falsy then
    .ok false
  else
    match v with
    | .vStr s =>
      match dateParse s with
      | none => .ok false
      | some t =>
        if ¬ fromD.isEmpty then
          match dateParse fromD with
          | none => .ok false
          | some f =>
            if ¬ toD.isEmpty then
              match dateParse toD with
              | none => .ok false
              | some td => .ok (decide (f ≤ t ∧ t ≤ td))
            else .ok (decide (f ≤ t))
        else
          if ¬ toD.isEmpty then
            match dateParse toD with
            | none => .ok false
            | some td => .ok (decide (t ≤ td))
          else .ok false
    | _ => .ok false

/-- The accumulation loop of `_filter_by_date` over the item list. -/
def filterLoop (dateParse : List Char → Option Int) (dateField : List Char)
    (fromD toD : List Char) : List Value → Except PyErr (List Value)
  | [] => .ok []
  | it :: rest => do
    let b ← keepItem dateParse dateField fromD toD it
    let r ← filterLoop dateParse dateField fromD toD rest
    .ok (if b then it :: r else r)

/-- `AzureDevOpsTool._filter_by_date` (`azdo_tools.py`, lines 149–204). -/
def filterByDate (dateParse : List Char → Option Int) (items : List Value)
    (dateField : List Char) (dateFilter : List Char) (today : Ymd) :
    Except PyErr (List Value) := do
  let ft ← parseDateFilter dateFilter today
  if ft.1.isEmpty ∧ ft.2.isEmpty then
    .ok items
  else
    filterLoop dateParse dateField ft.1 ft.2 items

/-! ### `list_work_items` (`azdo_tools.py`, lines 375–474) -/

/-- Python truthiness of an optional string argument. -/
def truthy : Option (List Char) → Bool
  | none => false
  | some l => !l.isEmpty

/-- The literal `" AND "` separator of the filter clauses. -/
def andSep : List Char := (" AND ").data

/-- `' AND '.join(...)`. -/
def joinAnd : List (List Char) → List Char
  | [] => []
  | [x] => x
  | x :: xs => x ++ andSep ++ joinAnd xs

/-- The fixed `SELECT … FROM WorkItems WHERE ` head of the constructed WIQL. -/
def selectPart : List Char :=
  ("SELECT [System.Id], [System.Title], [System.State], [System.WorkItemType], [System.CreatedDate], [System.ChangedDate], [System.AssignedTo], [System.Tags] FROM WorkItems WHERE ").data

/-- The project equality clause interpolated into the constructed WIQL. -/
def projClause (p : List Char) : List Char :=
  ("[System.TeamProject] = '").data ++ p ++ "'".data

/-- The work-item-type equality clause. -/
def witClause (w : List Char) : List Char :=
  ("[System.WorkItemType] = '").data ++ w ++ "'".data

/-- The state equality clause. -/
def stClause (s : List Char) : List Char :=
  ("[System.State] = '").data ++ s ++ "'".data

/-- The trailing sort clause of the constructed WIQL. -/
def orderClause : List Char := (" ORDER BY [System.CreatedDate] DESC").data

/-- The WIQL text constructed by `list_work_items` when no custom
`query_string` is given (lines 420–444). -/
def buildQuery (project : List Char) (workItemType state : Option (List Char))
    (dateFilterWiql : List Char) : List Char :=
  let base := selectPart ++ projClause project
  let filters :=
    (if truthy workItemType then [witClause (workItemType.getD [])] else []) ++
    (if truthy state then [stClause (state.getD [])] else [])
  let base := if ¬ filters.isEmpty then base ++ andSep ++ joinAnd filters else base
  let base := if ¬ dateFilterWiql.isEmpty then base ++ " ".data ++ dateFilterWiql else base
  base ++ orderClause

/-- The server-side date clause and pending client-side filter chosen by
`list_work_items` (lines 393–417); the pair is `(date_filter_wiql,
client_side_date_filter)`. -/
def datePlan (dateFilter queryString : Option (List Char)) (today : Ymd) :
    Except PyErr (List Char × Option (List Char)) :=
  if truthy dateFilter ∧ ¬ truthy queryString then do
    let ft ← parseDateFilter (dateFilter.getD []) today
    if ¬ ft.1.isEmpty ∧ ¬ ft.2.isEmpty then
      .ok (("AND [System.CreatedDate] >= '").data ++ ft.1 ++
           ("' AND [System.CreatedDate] <= '").data ++ ft.2 ++ "'".data, none)
    else if ¬ ft.1.isEmpty then
      .ok (("AND [System.CreatedDate] >= '").data ++ ft.1 ++ "'".data, none)
    else if ¬ ft.2.isEmpty then
      .ok (("AND [System.CreatedDate] <= '").data ++ ft.2 ++ "'".data, none)
    else
      .ok ([], dateFilter)
  else if truthy dateFilter ∧ truthy queryString then
    .ok ([], dateFilter)
  else
    .ok ([], none)

/-- Fuelled 200-at-a-time chunking (`for i in range(0, len(ids), batch_size)`);
the fuel is an upper bound on the number of batches, so the fuelled function
implements the loop exactly. -/
def chunkAux : Nat → List Int → List (List Int)
  | 0, _ => []
  | _, [] => []
  | Nat.succ f, l => l.take 200 :: chunkAux f (l.drop 200)

/-- The identifier batches submitted to the detail-fetch endpoint. -/
def chunk200 (l : List Int) : List (List Int) := chunkAux l.length l

/-- Everything observable about one `list_work_items` call: the query text
submitted to the WIQL endpoint, the identifier batches sent to the detail
endpoint, the pending client-side date filter, and the returned records. -/
structure Trace where
  submitted : List Char
  batchCalls : List (List Int)
  clientFilter : Option (List Char)
  result : List Value

/-- `AzureDevOpsTool.list_work_items` (`azdo_tools.py`, lines 375–474).
`project` is the resolved `project_to_use`; `queryIds` is the identifier list
returned by the WIQL collaborator for the submitted query; `fetch` is the
batched detail-fetch collaborator; `dateParse` is the `dateutil` parser used
by the client-side filter. -/
def listWorkItems (dateParse : List Char → Option Int)
    (queryString : Option (List Char)) (project : List Char)
    (workItemType state dateFilter : Option (List Char)) (today : Ymd)
    (queryIds : List Int) (fetch : List Int → List Value) :
    Except PyErr Trace := do
  if project.isEmpty then
    .error .valueError
  else do
    let plan ← datePlan dateFilter queryString today
    let q := if truthy queryString then queryString.getD []
             else buildQuery project workItemType state plan.1
    if queryIds.isEmpty then
      .ok ⟨q, [], plan.2, []⟩
    else do
      let batches := chunk200 queryIds
      let details := (batches.map fetch).flatten
      match plan.2 with
      | some df => do
        let out ← filterByDate dateParse details ("fields.System.CreatedDate").data df today
        .ok ⟨q, batches, plan.2, out⟩
      | none => .ok ⟨q, batches, plan.2, details⟩

/-- Substring test (used to state "the query contains the clause"). -/
def containsSub (pat : List Char) : List Char → Bool
  | [] => pat.isEmpty
  | l@(_ :: t) => pat.isPrefixOf l || containsSub pat t

/-- Parse a ten-character `YYYY-MM-DD` shape back into its numeric fields
(used only to state the `from <= to` interval invariant). -/
def ymdOfStr (l : List Char) : Option Ymd :=
  match l with
  | [a, b, c, d, h1, e, f, h2, g, i] =>
    if a.isDigit ∧ b.isDigit ∧ c.isDigit ∧ d.isDigit ∧ h1 = '-' ∧
       e.isDigit ∧ f.isDigit ∧ h2 = '-' ∧ g.isDigit ∧ i.isDigit then
      some ⟨(digitsToNat [a, b, c, d] : Int), (digitsToNat [e, f] : Int),
            (digitsToNat [g, i] : Int)⟩
    else none
  | _ => none

/-- "The date named by `x` is on or before the date named by `y`": both strings
parse as `YYYY-MM-DD` shapes and their ordinals are ordered. -/
def dateLeStr (x y : List Char) : Bool :=
  match ymdOfStr x, ymdOfStr y with
  | some a, some b => decide (toOrd a ≤ toOrd b)
  | _, _ => false

/-- A date that Python's `datetime.now()` can produce: a valid calendar day in
years 1–9999. -/
def validPyDate (d : Ymd) : Prop := validYmd d ∧ 1 ≤ d.year ∧ d.year ≤ 9999

instance : DecidablePred validPyDate := fun d => by unfold validPyDate; infer_instance

/-- Holds when the (lowercased, stripped) expression matches none of the
recognized forms of `_parse_date_filter`: the eight keywords, the three
`last N unit` patterns, the explicit range and single date, `since`, and
`before`. -/
def noFormMatch (df : List Char) : Prop :=
  df ≠ "today".data ∧ df ≠ "yesterday".data ∧ df ≠ "this week".data ∧
  df ≠ "last week".data ∧ df ≠ "this month".data ∧ df ≠ "last month".data ∧
  df ≠ "this year".data ∧ df ≠ "last year".data ∧
  matchLastN " day".data df = none ∧ matchLastN " week".data df = none ∧
  matchLastN " month".data df = none ∧ matchRange df = none ∧
  matchYMD df = none ∧ matchKeyDate "since".data df = none ∧
  matchKeyDate "before".data df = none

instance : DecidablePred noFormMatch := fun df => by unfold noFormMatch; infer_instance

/-- The Boolean outcome of the `_filter_by_date` loop body for one item: `true`
exactly when the loop appends the item (and `false` also in the degenerate
case where the body would raise, which cannot happen on a dotted field). -/
def keepPure (dateParse : List Char → Option Int) (dateField fromD toD : List Char)
    (item : Value) : Bool :=
  match keepItem dateParse dateField fromD toD item with
  | .ok b => b
  | .error _ => false

/-- The item's extracted date value is missing, empty, non-string, or fails to
parse — the "malformed per-record date value" cases of the claim. -/
def extractBad (dateParse : List Char → Option Int) (dateField : List Char)
    (item : Value) : Bool :=
  match extractField dateField item with
  | .ok v => v.falsy || (match v with
      | .vStr s => (dateParse s).isNone
      | _ => true)
  | .error _ => false

/-! ## Claim theorems -/

/-- **C1**, counterexample. The claim asserts that the resolver's result "does
not depend on process-wide clock state read internally" because "`now` is an
explicit input of `_parse_date_filter`". In the source, `_parse_date_filter`
takes only the expression and reads `today = datetime.now()` inside, so runs
at different clock readings return different intervals for the same
expression: at `today`, clocks 2025-06-15 and 2025-06-16 disagree. -/
theorem c1_clock_dependence :
    parseDateFilter "today".data ⟨2025, 6, 15⟩ ≠
      parseDateFilter "today".data ⟨2025, 6, 16⟩ := by decide

/-- **C1**, amended. The Date Expression Resolver is a pure function of the
pair (expression, clock state at call): two runs with the same expression and
the same internally read `datetime.now()` value return the same interval —
but the clock is process-wide state read inside `_parse_date_filter`, not an
explicit `now` parameter. -/
theorem c1_referential_transparency (e : List Char) (c₁ c₂ : Ymd) (h : c₁ = c₂) :
    parseDateFilter e c₁ = parseDateFilter e c₂ := by rw [h]

theorem c1_referential_transparency_witness :
    parseDateFilter "last week".data ⟨2025, 6, 15⟩ =
      parseDateFilter "last week".data ⟨2025, 6, 15⟩ :=
  c1_referential_transparency "last week".data ⟨2025, 6, 15⟩ ⟨2025, 6, 15⟩ (by decide)

/-- **C2**. The claim says `_parse_date_filter` never fails, "including on
recognized forms such as 'last N months' … for any calendar value of 'now'".
The `last N months` branch runs `today.replace(year=year, month=month)`, which
keeps the day of month; at `today = 2025-03-31` the expression
`last 1 months` computes 2025-02-31 and Python raises
`ValueError: day is out of range for month`. -/
theorem c2_last_months_value_error :
    parseDateFilter "last 1 months".data ⟨2025, 3, 31⟩ = .error .valueError := by
  decide

/-- **C4**. For every expression whose lowercased, stripped text matches none
of the recognized forms, `_parse_date_filter` returns exactly the fallback
interval: `from` is `now` minus 30 days and `to` is `now`, both formatted
`YYYY-MM-DD` (with the subtraction behaving exactly as Python's, including its
range check). -/
theorem c4_fallback (e : List Char) (clock : Ymd)
    (h : noFormMatch (pyStrip (pyLower e))) :
    parseDateFilter e clock =
      (pySubDays clock 30).map (fun d => (fmtYmd d, fmtYmd clock)) := by
  obtain ⟨h1, h2, h3, h4, h5, h6, h7, h8, h9, h10, h11, h12, h13, h14, h15⟩ := h
  simp only [parseDateFilter]
  rw [show kwBranch (pyStrip (pyLower e)) clock = none by
    simp only [kwBranch]
    rw [if_neg h1, if_neg h2, if_neg h3, if_neg h4, if_neg h5, if_neg h6,
      if_neg h7, if_neg h8]]
  rw [show reBranch (pyStrip (pyLower e)) clock = none by
    simp only [reBranch, h9, h10, h11, h12, h13, h14, h15]]
  cases h30 : pySubDays clock 30 <;> rfl

theorem c4_fallback_witness :
    parseDateFilter "gibberish".data ⟨2025, 6, 15⟩ =
      (pySubDays ⟨2025, 6, 15⟩ 30).map
        (fun d => (fmtYmd d, fmtYmd ⟨2025, 6, 15⟩)) :=
  c4_fallback "gibberish".data ⟨2025, 6, 15⟩ (by decide)

/-- `matchYMD` succeeds only on strings starting with a digit, and its capture
is the first ten characters. -/
theorem matchYMD_shape (l p : List Char) (h : matchYMD l = some p) :
    (∃ a r, l = a :: r ∧ a.isDigit = true) ∧ p = l.take 10 := by
  unfold matchYMD at h
  split at h
  · split_ifs at h with hc
    cases h
    exact ⟨⟨_, _, rfl, hc.1⟩, rfl⟩
  · cases h

/-- **C10**. The explicit-date form is matched by an anchored prefix with no
calendar validation: whenever the lowercased, stripped expression starts with
a `DDDD-DD-DD` digit shape and the explicit-range pattern does not match, the
resolver returns that ten-character prefix verbatim as both bounds — for any
clock value, and regardless of what follows the prefix or whether it names a
real date. (String keywords and `last N unit` forms cannot match a
digit-initial string, so no earlier branch fires.) -/
theorem c10_prefix_date (e : List Char) (clock : Ymd) (p : List Char)
    (hymd : matchYMD (pyStrip (pyLower e)) = some p)
    (hrange : matchRange (pyStrip (pyLower e)) = none) :
    parseDateFilter e clock = .ok (p, p) ∧ p = (pyStrip (pyLower e)).take 10 := by
  obtain ⟨⟨a, r, hl, hdig⟩, htake⟩ := matchYMD_shape _ _ hymd
  refine ⟨?_, htake⟩
  have hkw : kwBranch (pyStrip (pyLower e)) clock = none := by
    simp only [kwBranch]
    rw [if_neg, if_neg, if_neg, if_neg, if_neg, if_neg, if_neg, if_neg] <;>
      · rw [hl]
        intro hcontra
        rw [List.cons.injEq] at hcontra
        obtain ⟨ha, _⟩ := hcontra
        subst ha
        exact absurd hdig (by decide)
  have hal : ('l' == a) = false := by
    rw [beq_eq_false_iff_ne]
    intro hcontra
    rw [← hcontra] at hdig
    exact absurd hdig (by decide)
  have hlast : ∀ unit, matchLastN unit (pyStrip (pyLower e)) = none := by
    intro unit
    rw [matchLastN, if_neg]
    rw [hl]
    show ¬ (('l' :: "ast ".data).isPrefixOf (a :: r) = true)
    simp only [List.isPrefixOf, hal, Bool.false_and]
    exact Bool.false_ne_true
  simp only [parseDateFilter, hkw]
  rw [show reBranch (pyStrip (pyLower e)) clock = some (.ok (p, p)) by
    simp only [reBranch, hlast " day".data, hlast " week".data, hlast " month".data,
      hrange, hymd]]

theorem exceptBindOk {α β : Type} (x : α) (f : α → Except PyErr β) :
    (Except.ok x >>= f) = f x := rfl

theorem exceptBindErr {α β : Type} (e : PyErr) (f : α → Except PyErr β) :
    ((Except.error e : Except PyErr α) >>= f) = Except.error e := rfl

theorem truthy_some (l : List Char) (h : l ≠ []) : truthy (some l) = true := by
  cases l with
  | nil => exact absurd rfl h
  | cons a r => rfl

theorem isEmpty_false (l : List Char) (h : l ≠ []) : l.isEmpty = false := by
  cases l with
  | nil => exact absurd rfl h
  | cons a r => rfl

/-- **C5**. When the caller supplies a (non-empty) raw query string together
with a date expression, `list_work_items` submits exactly the caller's query
verbatim, marks the date expression as a pending client-side filter, and — if
any identifiers come back — applies `_filter_by_date` to the fetched records
as the final step. An empty identifier list short-circuits to an empty result
without running the filter. -/
theorem c5_raw_query_verbatim (dateParse : List Char → Option Int)
    (raw project : List Char) (wit st : Option (List Char)) (df : List Char)
    (clock : Ymd) (ids : List Int) (fetch : List Int → List Value)
    (hp : project ≠ []) (hraw : raw ≠ []) (hdf : df ≠ []) :
    listWorkItems dateParse (some raw) project wit st (some df) clock ids fetch =
      if ids.isEmpty then .ok ⟨raw, [], some df, []⟩
      else (filterByDate dateParse ((chunk200 ids).map fetch).flatten
              ("fields.System.CreatedDate").data df clock).map
             (fun out => ⟨raw, chunk200 ids, some df, out⟩) := by
  have htd := truthy_some df hdf
  have htr := truthy_some raw hraw
  have hplan : datePlan (some df) (some raw) clock = .ok ([], some df) := by
    rw [datePlan, if_neg, if_pos ⟨htd, htr⟩]
    rw [htd, htr]
    simp
  simp only [listWorkItems, isEmpty_false project hp, Bool.false_eq_true,
    if_false, hplan]
  cases ids with
  | nil => simp [htr, exceptBindOk]
  | cons i is =>
    cases hf : filterByDate dateParse ((chunk200 (i :: is)).map fetch).flatten
        ("fields.System.CreatedDate").data df clock <;>
      simp [htr, hf, Except.map, exceptBindOk, exceptBindErr]

theorem c5_raw_query_verbatim_witness :
    listWorkItems (fun _ => none) (some "SELECT 1".data) "P".data none none
        (some "today".data) ⟨2025, 6, 15⟩ [1, 2] (fun _ => []) =
      if ([1, 2] : List Int).isEmpty then
        .ok ⟨"SELECT 1".data, [], some "today".data, []⟩
      else (filterByDate (fun _ => none)
              ((chunk200 [1, 2]).map (fun _ => [])).flatten
              ("fields.System.CreatedDate").data "today".data ⟨2025, 6, 15⟩).map
             (fun out => ⟨"SELECT 1".data, chunk200 [1, 2], some "today".data, out⟩) :=
  c5_raw_query_verbatim (fun _ => none) "SELECT 1".data "P".data none none
    "today".data ⟨2025, 6, 15⟩ [1, 2] (fun _ => [])
    (by decide) (by decide) (by decide)

theorem isPrefixOf_append_self (p r : List Char) : p.isPrefixOf (p ++ r) = true := by
  induction p with
  | nil => cases r <;> rfl
  | cons a as ih => simp [List.isPrefixOf, ih]

theorem isPrefixOf_mono (p l r : List Char) (h : p.isPrefixOf l = true) :
    p.isPrefixOf (l ++ r) = true := by
  induction p generalizing l with
  | nil => cases l with
    | nil => cases r <;> rfl
    | cons y ys => rfl
  | cons x xs ih =>
    cases l with
    | nil => simp [List.isPrefixOf] at h
    | cons y ys =>
      simp only [List.cons_append, List.isPrefixOf, Bool.and_eq_true] at h ⊢
      exact ⟨h.1, ih ys h.2⟩

theorem containsSub_here (pat r : List Char) : containsSub pat (pat ++ r) = true := by
  cases pat with
  | nil => cases r <;> rfl
  | cons a as =>
    simp only [List.cons_append, containsSub, Bool.or_eq_true]
    exact Or.inl (isPrefixOf_append_self (a :: as) r)

theorem containsSub_self (pat : List Char) : containsSub pat pat = true := by
  have := containsSub_here pat []
  rwa [List.append_nil] at this

theorem containsSub_append_left (pat a r : List Char) (h : containsSub pat r = true) :
    containsSub pat (a ++ r) = true := by
  induction a with
  | nil => exact h
  | cons x xs ih =>
    simp only [List.cons_append, containsSub, Bool.or_eq_true]
    exact Or.inr ih

theorem containsSub_append_right (pat l r : List Char) (h : containsSub pat l = true) :
    containsSub pat (l ++ r) = true := by
  induction l with
  | nil =>
    cases pat with
    | nil => exact containsSub_here [] r
    | cons a as => simp [containsSub] at h
  | cons x xs ih =>
    simp only [List.cons_append, containsSub, Bool.or_eq_true] at h ⊢
    rcases h with h | h
    · exact Or.inl (isPrefixOf_mono _ _ _ h)
    · exact Or.inr (ih h)

theorem isSuffixOf_append_self (s x : List Char) : s.isSuffixOf (x ++ s) = true := by
  unfold List.isSuffixOf
  rw [List.reverse_append]
  exact isPrefixOf_append_self _ _

/-- Every successful `list_work_items` call without a custom `query_string`
submits a query built by the WIQL constructor. -/
theorem listWorkItems_none_submitted (dateParse : List Char → Option Int)
    (project : List Char) (wit st df : Option (List Char)) (clock : Ymd)
    (ids : List Int) (fetch : List Int → List Value) (tr : Trace)
    (h : listWorkItems dateParse none project wit st df clock ids fetch = .ok tr) :
    ∃ w, tr.submitted = buildQuery project wit st w := by
  rw [listWorkItems] at h
  by_cases hp : project.isEmpty = true
  · rw [if_pos hp] at h; cases h
  · rw [if_neg hp] at h
    cases hdp : datePlan df none clock with
    | error e => rw [hdp, exceptBindErr] at h; cases h
    | ok plan =>
      rw [hdp, exceptBindOk] at h
      rw [if_neg (by decide : ¬ truthy (none : Option (List Char)) = true)] at h
      by_cases hids : ids.isEmpty = true
      · rw [if_pos hids] at h
        cases h
        exact ⟨plan.1, rfl⟩
      · rw [if_neg hids] at h
        cases hp2 : plan.2 with
        | none =>
          rw [hp2] at h
          cases h
          exact ⟨plan.1, rfl⟩
        | some d =>
          rw [hp2] at h
          dsimp only at h
          cases hfb : filterByDate dateParse ((chunk200 ids).map fetch).flatten
              ("fields.System.CreatedDate").data d clock with
          | error e => rw [hfb, exceptBindErr] at h; cases h
          | ok out =>
            rw [hfb, exceptBindOk] at h
            cases h
            exact ⟨plan.1, rfl⟩

theorem buildQuery_proj (project : List Char) (wit st : Option (List Char))
    (w : List Char) :
    containsSub (projClause project) (buildQuery project wit st w) = true := by
  simp only [buildQuery]
  have hbase : containsSub (projClause project) (selectPart ++ projClause project) = true :=
    containsSub_append_left _ _ _ (containsSub_self _)
  by_cases hfil : ¬ ((if truthy wit = true then [witClause (wit.getD [])] else []) ++
      (if truthy st = true then [stClause (st.getD [])] else [])).isEmpty = true
  · rw [if_pos hfil]
    by_cases hdfw : ¬ w.isEmpty = true
    · rw [if_pos hdfw]
      exact containsSub_append_right _ _ _ (containsSub_append_right _ _ _
        (containsSub_append_right _ _ _ (containsSub_append_right _ _ _
          (containsSub_append_right _ _ _ hbase))))
    · rw [if_neg hdfw]
      exact containsSub_append_right _ _ _ (containsSub_append_right _ _ _
        (containsSub_append_right _ _ _ hbase))
  · rw [if_neg hfil]
    by_cases hdfw : ¬ w.isEmpty = true
    · rw [if_pos hdfw]
      exact containsSub_append_right _ _ _ (containsSub_append_right _ _ _
        (containsSub_append_right _ _ _ hbase))
    · rw [if_neg hdfw]
      exact containsSub_append_right _ _ _ hbase

theorem buildQuery_wit (project : List Char) (w : List Char)
    (st : Option (List Char)) (dfw : List Char) (hw : w ≠ []) :
    containsSub (witClause w) (buildQuery project (some w) st dfw) = true := by
  simp only [buildQuery, truthy_some w hw, if_true, Option.getD_some]
  have hwc : containsSub (witClause w)
      (joinAnd ([witClause w] ++
        (if truthy st = true then [stClause (st.getD [])] else []))) = true := by
    by_cases hst : truthy st = true
    · rw [if_pos hst]
      rw [show joinAnd ([witClause w] ++ [stClause (st.getD [])]) =
        witClause w ++ andSep ++ joinAnd [stClause (st.getD [])] from rfl]
      exact containsSub_append_right _ _ _
        (containsSub_append_right _ _ _ (containsSub_self _))
    · rw [if_neg hst]
      exact containsSub_self _
  have hfne : ¬ ([witClause w] ++
      (if truthy st = true then [stClause (st.getD [])] else [])).isEmpty = true := by
    by_cases hst : truthy st = true <;> simp [hst]
  rw [if_pos hfne]
  have hstep := containsSub_append_left (witClause w)
    (selectPart ++ projClause project ++ andSep) _ hwc
  by_cases hdfw : ¬ dfw.isEmpty = true
  · rw [if_pos hdfw]
    exact containsSub_append_right _ _ _ (containsSub_append_right _ _ _
      (containsSub_append_right _ _ _ hstep))
  · rw [if_neg hdfw]
    exact containsSub_append_right _ _ _ hstep

theorem buildQuery_state (project : List Char) (wit : Option (List Char))
    (sv : List Char) (dfw : List Char) (hs : sv ≠ []) :
    containsSub (stClause sv) (buildQuery project wit (some sv) dfw) = true := by
  simp only [buildQuery, truthy_some sv hs, if_true, Option.getD_some]
  have hsc : containsSub (stClause sv)
      (joinAnd ((if truthy wit = true then [witClause (wit.getD [])] else []) ++
        [stClause sv])) = true := by
    by_cases hw : truthy wit = true
    · rw [if_pos hw]
      rw [show joinAnd ([witClause (wit.getD [])] ++ [stClause sv]) =
        witClause (wit.getD []) ++ andSep ++ joinAnd [stClause sv] from rfl]
      exact containsSub_append_left _ _ _ (containsSub_self _)
    · rw [if_neg hw]
      exact containsSub_self _
  have hfne : ¬ ((if truthy wit = true then [witClause (wit.getD [])] else []) ++
      [stClause sv]).isEmpty = true := by
    by_cases hw : truthy wit = true <;> simp [hw]
  rw [if_pos hfne]
  have hstep := containsSub_append_left (stClause sv)
    (selectPart ++ projClause project ++ andSep) _ hsc
  by_cases hdfw : ¬ dfw.isEmpty = true
  · rw [if_pos hdfw]
    exact containsSub_append_right _ _ _ (containsSub_append_right _ _ _
      (containsSub_append_right _ _ _ hstep))
  · rw [if_neg hdfw]
    exact containsSub_append_right _ _ _ hstep

theorem buildQuery_suffix (project : List Char) (wit st : Option (List Char))
    (dfw : List Char) :
    orderClause.isSuffixOf (buildQuery project wit st dfw) = true := by
  simp only [buildQuery]
  split_ifs <;> exact isSuffixOf_append_self _ _

set_option maxRecDepth 4000 in
/-- **C6**, counterexample. The claim's "if and only if" fails: the clause text
can be injected through the project value. With
`project = "P' AND [System.WorkItemType] = 'Bug"` and `work_item_type` NOT
supplied (`none`), the constructed query still contains a `WorkItemType`
equality clause, refuting the claimed equivalence at this input. -/
theorem c6_iff_counterexample :
    ¬ (containsSub ("[System.WorkItemType] = '").data
         (buildQuery ("P' AND [System.WorkItemType] = 'Bug").data none none []) = true ↔
       truthy (none : Option (List Char)) = true) := by decide

/-- **C6**, amended. For every successful `list_work_items` call without a raw
query: the submitted query contains the equality clause on the project field;
it contains a `WorkItemType` equality clause if `work_item_type` was supplied
(non-empty), and a `State` equality clause if `state` was supplied
(non-empty); and it ends with the descending sort on the creation date. (The
converse directions of the claim's "if and only if" are dropped: clause text
can be injected through the other argument values.) -/
theorem c6_query_construction (dateParse : List Char → Option Int)
    (project : List Char) (wit st df : Option (List Char)) (clock : Ymd)
    (ids : List Int) (fetch : List Int → List Value) (tr : Trace)
    (h : listWorkItems dateParse none project wit st df clock ids fetch = .ok tr) :
    containsSub (projClause project) tr.submitted = true ∧
    (∀ w, wit = some w → w ≠ [] →
      containsSub (witClause w) tr.submitted = true) ∧
    (∀ sv, st = some sv → sv ≠ [] →
      containsSub (stClause sv) tr.submitted = true) ∧
    orderClause.isSuffixOf tr.submitted = true := by
  obtain ⟨w, hsub⟩ := listWorkItems_none_submitted dateParse project wit st df
    clock ids fetch tr h
  rw [hsub]
  refine ⟨buildQuery_proj project wit st w, ?_, ?_, buildQuery_suffix project wit st w⟩
  · intro v hv hvne
    rw [hv]
    exact buildQuery_wit project v st w hvne
  · intro v hv hvne
    rw [hv]
    exact buildQuery_state project wit v w hvne

theorem c6_query_construction_witness :
    containsSub (projClause "Demo".data)
      (Trace.mk (buildQuery "Demo".data (some "Bug".data) none []) [] none []).submitted
        = true ∧
    (∀ w, (some "Bug".data : Option (List Char)) = some w → w ≠ [] →
      containsSub (witClause w)
        (Trace.mk (buildQuery "Demo".data (some "Bug".data) none []) [] none []).submitted
          = true) ∧
    (∀ sv, (none : Option (List Char)) = some sv → sv ≠ [] →
      containsSub (stClause sv)
        (Trace.mk (buildQuery "Demo".data (some "Bug".data) none []) [] none []).submitted
          = true) ∧
    orderClause.isSuffixOf
      (Trace.mk (buildQuery "Demo".data (some "Bug".data) none []) [] none []).submitted
        = true :=
  c6_query_construction (fun _ => none) "Demo".data (some "Bug".data) none none
    ⟨2025, 6, 15⟩ [] (fun _ => []) _ rfl

theorem chunkAux_nil (fuel : Nat) : chunkAux fuel [] = [] := by
  cases fuel <;> rfl

theorem chunkAux_flatten (fuel : Nat) (l : List Int) (h : l.length ≤ fuel) :
    (chunkAux fuel l).flatten = l := by
  induction fuel generalizing l with
  | zero =>
    cases l with
    | nil => rfl
    | cons x xs => simp at h
  | succ f ih =>
    cases l with
    | nil => rfl
    | cons x xs =>
      simp only [chunkAux, List.flatten_cons]
      rw [ih]
      · exact List.take_append_drop 200 (x :: xs)
      · simp only [List.length_drop, List.length_cons] at h ⊢
        omega

theorem chunkAux_sizes (fuel : Nat) (l : List Int) :
    ∀ b ∈ chunkAux fuel l, b ≠ [] ∧ b.length ≤ 200 := by
  induction fuel generalizing l with
  | zero => intro b hb; simp [chunkAux] at hb
  | succ f ih =>
    intro b hb
    cases l with
    | nil => simp [chunkAux] at hb
    | cons x xs =>
      simp only [chunkAux, List.mem_cons] at hb
      rcases hb with hb | hb
      · subst hb
        constructor
        · simp [List.take]
        · simp [List.length_take]
      · exact ih _ b hb

theorem chunkAux_dropLast (fuel : Nat) (l : List Int) (h : l.length ≤ fuel) :
    ∀ b ∈ (chunkAux fuel l).dropLast, b.length = 200 := by
  induction fuel generalizing l with
  | zero => intro b hb; simp [chunkAux] at hb
  | succ f ih =>
    intro b hb
    cases l with
    | nil => simp [chunkAux] at hb
    | cons x xs =>
      simp only [chunkAux] at hb
      cases hrest : chunkAux f ((x :: xs).drop 200) with
      | nil => rw [hrest] at hb; simp at hb
      | cons r rs =>
        rw [hrest, List.dropLast_cons₂, List.mem_cons] at hb
        rcases hb with hb | hb
        · subst hb
          have hlen : 200 < (x :: xs).length := by
            by_contra hc
            have : (x :: xs).drop 200 = [] := by
              apply List.drop_eq_nil_of_le
              omega
            rw [this, chunkAux_nil] at hrest
            cases hrest
          simp only [List.length_take]
          omega
        · have := ih ((x :: xs).drop 200) (by
            simp only [List.length_drop, List.length_cons] at h ⊢
            omega)
          rw [hrest] at this
          exact this b hb

set_option maxRecDepth 4000 in
/-- **C7**. With no date filter pending, `list_work_items` fetches details in
consecutive batches of exactly 200 identifiers (the trailing batch holding the
remainder), in identifier order, concatenating the batch results in order; an
empty identifier sequence returns `[]` immediately with no detail-fetch call;
and 450 identifiers produce exactly 3 calls of sizes 200, 200, 50. -/
theorem c7_batching (dateParse : List Char → Option Int) (q project : List Char)
    (wit st : Option (List Char)) (clock : Ymd) (ids : List Int)
    (fetch : List Int → List Value) (hp : project ≠ []) (hq : q ≠ []) :
    listWorkItems dateParse (some q) project wit st none clock ids fetch =
      (if ids.isEmpty then .ok ⟨q, [], none, []⟩
       else .ok ⟨q, chunk200 ids, none, ((chunk200 ids).map fetch).flatten⟩) ∧
    (chunk200 ids).flatten = ids ∧
    (∀ b ∈ (chunk200 ids).dropLast, b.length = 200) ∧
    (∀ b ∈ chunk200 ids, b ≠ [] ∧ b.length ≤ 200) ∧
    (chunk200 ((List.range 450).map Int.ofNat)).map List.length =
      [200, 200, 50] := by
  refine ⟨?_, chunkAux_flatten _ _ le_rfl, chunkAux_dropLast _ _ le_rfl,
    chunkAux_sizes _ _, by decide⟩
  have htq := truthy_some q hq
  have hplan : datePlan none (some q) clock = .ok ([], none) := by
    rw [datePlan, if_neg, if_neg] <;> simp [truthy]
  simp only [listWorkItems, isEmpty_false project hp, Bool.false_eq_true,
    if_false, hplan]
  cases ids with
  | nil => simp [htq, exceptBindOk]
  | cons i is => simp [htq, exceptBindOk]

set_option maxRecDepth 4000 in
theorem c7_batching_witness :
    (listWorkItems (fun _ => none) (some "Q".data) "P".data none none none
        ⟨2025, 6, 15⟩ [7] (fun _ => []) =
      (if ([7] : List Int).isEmpty then .ok ⟨"Q".data, [], none, []⟩
       else .ok ⟨"Q".data, chunk200 [7], none,
                 ((chunk200 [7]).map (fun _ => [])).flatten⟩)) ∧
    (chunk200 [7]).flatten = [7] ∧
    (∀ b ∈ (chunk200 [7]).dropLast, b.length = 200) ∧
    (∀ b ∈ chunk200 [7], b ≠ [] ∧ b.length ≤ 200) ∧
    (chunk200 ((List.range 450).map Int.ofNat)).map List.length =
      [200, 200, 50] :=
  c7_batching (fun _ => none) "Q".data "P".data none none ⟨2025, 6, 15⟩ [7]
    (fun _ => []) (by decide) (by decide)

theorem extractField_dotted (dateField : List Char) (item : Value)
    (hdot : '.' ∈ dateField) :
    extractField dateField item = .ok (walkPath item (splitDot dateField)) := by
  rw [extractField, if_pos hdot]

theorem keepItem_dotted_isOk (dateParse : List Char → Option Int)
    (dateField fromD toD : List Char) (item : Value) (hdot : '.' ∈ dateField) :
    ∃ b, keepItem dateParse dateField fromD toD item = .ok b := by
  rw [keepItem, extractField_dotted dateField item hdot, exceptBindOk]
  repeat' split
  all_goals exact ⟨_, rfl⟩

theorem filterLoop_filter (dateParse : List Char → Option Int)
    (dateField fromD toD : List Char) (items : List Value) (hdot : '.' ∈ dateField) :
    filterLoop dateParse dateField fromD toD items =
      .ok (items.filter (keepPure dateParse dateField fromD toD)) := by
  induction items with
  | nil => rfl
  | cons it rest ih =>
    obtain ⟨b, hb⟩ := keepItem_dotted_isOk dateParse dateField fromD toD it hdot
    rw [filterLoop, hb, exceptBindOk, ih, exceptBindOk, List.filter_cons,
      show keepPure dateParse dateField fromD toD it = b from by rw [keepPure, hb]]

/-- **C8**. During client-side date filtering over a dotted field path, every
record whose extracted nested date value is missing, empty, non-string, or
unparseable is silently excluded — the call still returns `.ok` of exactly the
kept records (`List.filter`), so the remaining records are all processed and
no error is raised. -/
theorem c8_malformed_records (dateParse : List Char → Option Int)
    (items : List Value) (dateField df : List Char) (clock : Ymd)
    (f t : List Char) (hdot : '.' ∈ dateField)
    (hparse : parseDateFilter df clock = .ok (f, t))
    (hne : ¬ (f.isEmpty = true ∧ t.isEmpty = true)) :
    filterByDate dateParse items dateField df clock =
      .ok (items.filter (keepPure dateParse dateField f t)) ∧
    ∀ it, extractBad dateParse dateField it = true →
      keepPure dateParse dateField f t it = false := by
  constructor
  · rw [filterByDate, hparse, exceptBindOk, if_neg hne]
    exact filterLoop_filter dateParse dateField f t items hdot
  · intro it hbad
    rw [extractBad, extractField_dotted dateField it hdot] at hbad
    rw [keepPure, keepItem, extractField_dotted dateField it hdot, exceptBindOk]
    cases hv : walkPath it (splitDot dateField) with
    | vNull => rfl
    | vDict d => cases d <;> rfl
    | vStr sdata =>
      rw [hv] at hbad
      dsimp only [Value.falsy] at hbad
      by_cases hse : sdata.isEmpty = true
      · rw [if_pos (show Value.falsy (Value.vStr sdata) = true from hse)]
      · have hbad' : sdata.isEmpty = true ∨ (dateParse sdata).isNone = true := by
          simpa using hbad
        have hnone : dateParse sdata = none := by
          rcases hbad' with h | h
          · exact absurd h hse
          · exact Option.isNone_iff_eq_none.mp h
        rw [if_neg (show ¬ Value.falsy (Value.vStr sdata) = true from hse)]
        dsimp only
        rw [hnone]

theorem c8_malformed_records_witness :
    filterByDate (fun _ => none) [Value.vDict []]
        ("fields.System.CreatedDate").data "today".data ⟨2025, 6, 15⟩ =
      .ok ([Value.vDict []].filter
        (keepPure (fun _ => none) ("fields.System.CreatedDate").data
          "2025-06-15".data "2025-06-15".data)) ∧
    ∀ it, extractBad (fun _ => none) ("fields.System.CreatedDate").data it = true →
      keepPure (fun _ => none) ("fields.System.CreatedDate").data
        "2025-06-15".data "2025-06-15".data it = false :=
  c8_malformed_records (fun _ => none) [Value.vDict []]
    ("fields.System.CreatedDate").data "today".data ⟨2025, 6, 15⟩
    "2025-06-15".data "2025-06-15".data (by decide) (by decide) (by decide)

theorem c10_prefix_date_witness :
    parseDateFilter "2025-99-99".data ⟨2025, 6, 15⟩ =
      .ok ("2025-99-99".data, "2025-99-99".data) ∧
    parseDateFilter "2025-03-15 extra words".data ⟨2025, 6, 15⟩ =
      .ok ("2025-03-15".data, "2025-03-15".data) :=
  ⟨(c10_prefix_date "2025-99-99".data ⟨2025, 6, 15⟩ "2025-99-99".data
      (by decide) (by decide)).1,
   (c10_prefix_date "2025-03-15 extra words".data ⟨2025, 6, 15⟩ "2025-03-15".data
      (by decide) (by decide)).1⟩

theorem daysInMonth_le31 (y m : Int) : daysInMonth y m ≤ 31 := by
  unfold daysInMonth; split_ifs <;> omega

theorem daysInMonth_pos (y m : Int) : 1 ≤ daysInMonth y m := by
  unfold daysInMonth; split_ifs <;> omega

theorem toOrd_range (d : Ymd) (hv : validYmd d) (h1 : 1 ≤ d.year) (h9 : d.year ≤ 9999) :
    1 ≤ toOrd d ∧ toOrd d ≤ 3652059 := by
  obtain ⟨hm1, hm2, hd1, hd2⟩ := hv
  unfold daysInMonth at hd2
  unfold toOrd daysBeforeMonth
  split_ifs at * <;> omega

theorem toOrd_year_bounds (d : Ymd) (hv : validYmd d) :
    (1 ≤ toOrd d → 1 ≤ d.year) ∧ (toOrd d ≤ 3652059 → d.year ≤ 9999) := by
  obtain ⟨hm1, hm2, hd1, hd2⟩ := hv
  unfold daysInMonth at hd2
  unfold toOrd daysBeforeMonth
  split_ifs at * <;> omega

theorem ofOrd_year_range (z : Int) (h1 : 1 ≤ z) (h2 : z ≤ 3652059) :
    1 ≤ (ofOrd z).year ∧ (ofOrd z).year ≤ 9999 := by
  have ht := toOrd_ofOrd z
  have hb := toOrd_year_bounds (ofOrd z) (ofOrd_valid z)
  exact ⟨hb.1 (by omega), hb.2 (by omega)⟩

theorem digitChar_spec (k : Int) (h0 : 0 ≤ k) (h9 : k ≤ 9) :
    (digitChar k).isDigit = true ∧ (digitChar k).toNat = 48 + k.toNat := by
  interval_cases k <;> exact ⟨rfl, rfl⟩

theorem digitsToNat_fmt4 (y : Int) (h0 : 0 ≤ y) (h9 : y ≤ 9999) :
    (digitsToNat (fmt4 y) : Int) = y := by
  obtain ⟨_, e1⟩ := digitChar_spec (y / 1000 % 10) (by omega) (by omega)
  obtain ⟨_, e2⟩ := digitChar_spec (y / 100 % 10) (by omega) (by omega)
  obtain ⟨_, e3⟩ := digitChar_spec (y / 10 % 10) (by omega) (by omega)
  obtain ⟨_, e4⟩ := digitChar_spec (y % 10) (by omega) (by omega)
  simp only [fmt4, digitsToNat, List.foldl, e1, e2, e3, e4]
  omega

theorem digitsToNat_fmt2 (m : Int) (h0 : 0 ≤ m) (h9 : m ≤ 99) :
    (digitsToNat (fmt2 m) : Int) = m := by
  obtain ⟨_, e1⟩ := digitChar_spec (m / 10 % 10) (by omega) (by omega)
  obtain ⟨_, e2⟩ := digitChar_spec (m % 10) (by omega) (by omega)
  simp only [fmt2, digitsToNat, List.foldl, e1, e2]
  omega

theorem fmtYmd_eq_cons (d : Ymd) :
    fmtYmd d = digitChar (d.year / 1000 % 10) :: digitChar (d.year / 100 % 10) ::
      digitChar (d.year / 10 % 10) :: digitChar (d.year % 10) :: '-' ::
      digitChar (d.month / 10 % 10) :: digitChar (d.month % 10) :: '-' ::
      digitChar (d.day / 10 % 10) :: digitChar (d.day % 10) :: [] := rfl

theorem fmtYmd_ne_nil (d : Ymd) : fmtYmd d ≠ [] := by
  rw [fmtYmd_eq_cons]
  exact List.cons_ne_nil _ _

theorem ymdOfStr_fmtYmd (d : Ymd) (hy0 : 0 ≤ d.year) (hy : d.year ≤ 9999)
    (hm0 : 0 ≤ d.month) (hm : d.month ≤ 99) (hd0 : 0 ≤ d.day) (hd : d.day ≤ 99) :
    ymdOfStr (fmtYmd d) = some ⟨d.year, d.month, d.day⟩ := by
  rw [fmtYmd_eq_cons, ymdOfStr]
  rw [if_pos]
  · simp only [Option.some.injEq, Ymd.mk.injEq]
    refine ⟨?_, ?_, ?_⟩
    · have := digitsToNat_fmt4 d.year hy0 hy
      simpa only [fmt4] using this
    · have := digitsToNat_fmt2 d.month hm0 hm
      simpa only [fmt2] using this
    · have := digitsToNat_fmt2 d.day hd0 hd
      simpa only [fmt2] using this
  · refine ⟨(digitChar_spec _ (by omega) (by omega)).1,
      (digitChar_spec _ (by omega) (by omega)).1,
      (digitChar_spec _ (by omega) (by omega)).1,
      (digitChar_spec _ (by omega) (by omega)).1, rfl,
      (digitChar_spec _ (by omega) (by omega)).1,
      (digitChar_spec _ (by omega) (by omega)).1, rfl,
      (digitChar_spec _ (by omega) (by omega)).1,
      (digitChar_spec _ (by omega) (by omega)).1⟩

/-- The workhorse for the interval invariant: formatted dates compare by their
ordinals. -/
theorem dateLeStr_fmt (a b : Ymd) (hva : validYmd a) (ha1 : 1 ≤ a.year)
    (ha9 : a.year ≤ 9999) (hvb : validYmd b) (hb1 : 1 ≤ b.year) (hb9 : b.year ≤ 9999)
    (hle : toOrd a ≤ toOrd b) : dateLeStr (fmtYmd a) (fmtYmd b) = true := by
  have hma1 := hva.1
  have hma := hva.2.1
  have hda1 := hva.2.2.1
  have hda := le_trans hva.2.2.2 (daysInMonth_le31 a.year a.month)
  have hmb1 := hvb.1
  have hmb := hvb.2.1
  have hdb1 := hvb.2.2.1
  have hdb := le_trans hvb.2.2.2 (daysInMonth_le31 b.year b.month)
  unfold dateLeStr
  rw [ymdOfStr_fmtYmd a (by omega) ha9 (by omega) (by omega) (by omega) (by omega),
    ymdOfStr_fmtYmd b (by omega) hb9 (by omega) (by omega) (by omega) (by omega)]
  exact decide_eq_true hle

theorem toOrd_day_le (y m d1 d2 : Int) (h : d1 ≤ d2) :
    toOrd ⟨y, m, d1⟩ ≤ toOrd ⟨y, m, d2⟩ := by
  simp only [toOrd]
  omega

theorem toOrd_jan1_le (y m d : Int) (hm1 : 1 ≤ m) (hm : m ≤ 12) (hd : 1 ≤ d) :
    toOrd ⟨y, 1, 1⟩ ≤ toOrd ⟨y, m, d⟩ := by
  simp only [toOrd, daysBeforeMonth]
  split_ifs <;> omega

theorem toOrd_ym_mono (y1 m1 y2 m2 d : Int) (h1 : 1 ≤ m1) (h2 : m1 ≤ 12)
    (h3 : 1 ≤ m2) (h4 : m2 ≤ 12) (_hd : 1 ≤ d)
    (hle : 12 * y1 + m1 ≤ 12 * y2 + m2) :
    toOrd ⟨y1, m1, d⟩ ≤ toOrd ⟨y2, m2, d⟩ := by
  have hy : y1 ≤ y2 := by omega
  rcases eq_or_lt_of_le hy with heq | hlt
  · subst heq
    have hm : m1 ≤ m2 := by omega
    have hdb : (367 * m1 - 362) / 12 ≤ (367 * m2 - 362) / 12 := by omega
    simp only [toOrd, daysBeforeMonth]
    split_ifs <;> omega
  · have hq4 : (y1 - 1) / 4 ≤ (y2 - 1) / 4 := by omega
    have hq400 : (y1 - 1) / 400 ≤ (y2 - 1) / 400 := by omega
    have hq100 : (y2 - 1) / 100 ≤ (y1 - 1) / 100 + (y2 - y1) := by omega
    simp only [toOrd, daysBeforeMonth]
    split_ifs <;> omega

theorem monthAdjustFuel_spec (fuel : Nat) (y m : Int) (hfuel : 1 - m ≤ 12 * fuel)
    (hm : m ≤ 12) :
    1 ≤ (monthAdjustFuel fuel y m).2 ∧ (monthAdjustFuel fuel y m).2 ≤ 12 ∧
    12 * (monthAdjustFuel fuel y m).1 + (monthAdjustFuel fuel y m).2 = 12 * y + m := by
  induction fuel generalizing y m with
  | zero =>
    dsimp only [monthAdjustFuel]
    omega
  | succ f ih =>
    rw [monthAdjustFuel]
    by_cases h : m ≤ 0
    · rw [if_pos h]
      have := ih (y - 1) (m + 12) (by omega) (by omega)
      omega
    · rw [if_neg h]
      dsimp only
      omega

theorem monthAdjust_spec (y m : Int) (hm : m ≤ 12) :
    1 ≤ (monthAdjust y m).2 ∧ (monthAdjust y m).2 ≤ 12 ∧
    12 * (monthAdjust y m).1 + (monthAdjust y m).2 = 12 * y + m :=
  monthAdjustFuel_spec (1 - m).toNat y m (by omega) hm

theorem pySubDays_ok (d : Ymd) (k : Int) (r : Ymd) (h : pySubDays d k = .ok r) :
    r = ofOrd (toOrd d - k) ∧ 1 ≤ toOrd d - k ∧ toOrd d - k ≤ 3652059 := by
  rw [pySubDays] at h
  split_ifs at h with hc
  cases h
  exact ⟨rfl, hc.1, hc.2⟩

theorem pyReplace_ok (d : Ymd) (y m dd : Option Int) (r : Ymd)
    (h : pyReplace d y m dd = .ok r) :
    r = ⟨y.getD d.year, m.getD d.month, dd.getD d.day⟩ ∧ validYmd r ∧
    1 ≤ r.year ∧ r.year ≤ 9999 := by
  rw [pyReplace] at h
  split_ifs at h with hc
  cases h
  exact ⟨rfl, ⟨hc.2.2.1, hc.2.2.2.1, hc.2.2.2.2.1, hc.2.2.2.2.2⟩, hc.1, hc.2.1⟩

theorem matchYMD_props (l p : List Char) (h : matchYMD l = some p) :
    p ≠ [] ∧ (ymdOfStr p).isSome = true := by
  unfold matchYMD at h
  split at h
  · split_ifs at h with hc
    cases h
    constructor
    · simp
    · rw [ymdOfStr, if_pos hc]
      rfl
  · cases h

theorem matchRange_caps (l : List Char) (a b : List Char)
    (h : matchRange l = some (a, b)) :
    (a ≠ [] ∧ (ymdOfStr a).isSome = true) ∧
    (b ≠ [] ∧ (ymdOfStr b).isSome = true) := by
  unfold matchRange at h
  cases h1 : matchYMD l with
  | none => rw [h1] at h; cases h
  | some d1 =>
    rw [h1] at h
    cases h2 : matchWsPlus (l.drop 10) with
    | none => rw [h2] at h; cases h
    | some r1 =>
      rw [h2] at h
      dsimp only at h
      split_ifs at h
      cases h3 : matchWsPlus (r1.drop 2) with
      | none => rw [h3] at h; cases h
      | some r2 =>
        rw [h3] at h
        dsimp only at h
        cases h4 : matchYMD r2 with
        | none => rw [h4] at h; cases h
        | some d2 =>
          rw [h4] at h
          cases h
          exact ⟨matchYMD_props l a h1, matchYMD_props r2 b h4⟩

theorem matchKeyDate_cap (key l p : List Char) (h : matchKeyDate key l = some p) :
    p ≠ [] ∧ (ymdOfStr p).isSome = true := by
  unfold matchKeyDate at h
  split_ifs at h
  cases hw : matchWsPlus (l.drop key.length) with
  | none => rw [hw] at h; cases h
  | some r =>
    rw [hw] at h
    exact matchYMD_props r p h

theorem dateLeStr_refl_of_isSome (p : List Char) (h : (ymdOfStr p).isSome = true) :
    dateLeStr p p = true := by
  unfold dateLeStr
  cases hy : ymdOfStr p with
  | none => rw [hy] at h; cases h
  | some d =>
    exact decide_eq_true le_rfl

theorem fmtPairGood (a b : Ymd) (hva : validYmd a) (ha1 : 1 ≤ a.year)
    (ha9 : a.year ≤ 9999) (hvb : validYmd b) (hb1 : 1 ≤ b.year) (hb9 : b.year ≤ 9999)
    (hle : toOrd a ≤ toOrd b) :
    (fmtYmd a ≠ [] ∧ fmtYmd b ≠ []) ∧ dateLeStr (fmtYmd a) (fmtYmd b) = true :=
  ⟨⟨fmtYmd_ne_nil a, fmtYmd_ne_nil b⟩,
   dateLeStr_fmt a b hva ha1 ha9 hvb hb1 hb9 hle⟩

theorem subPairGood (clock : Ymd) (hvc : validYmd clock) (hy1 : 1 ≤ clock.year)
    (hy9 : clock.year ≤ 9999) (k : Int) (hk : 0 ≤ k) (y : Ymd)
    (hs : pySubDays clock k = .ok y) :
    (fmtYmd y ≠ [] ∧ fmtYmd clock ≠ []) ∧
    dateLeStr (fmtYmd y) (fmtYmd clock) = true := by
  obtain ⟨rfl, hb1, hb2⟩ := pySubDays_ok clock k y hs
  have hyr := ofOrd_year_range (toOrd clock - k) hb1 hb2
  exact fmtPairGood _ clock (ofOrd_valid _) hyr.1 hyr.2 hvc hy1 hy9
    (by rw [toOrd_ofOrd]; omega)

/-- Master case analysis over every branch of `_parse_date_filter`: whenever
the resolver returns an interval, both bound strings are non-empty, and —
except for the explicit-range, `since` and `before` forms, which pass dates
through verbatim — the bounds are ordered `from <= to`. -/
theorem parse_ok_master (e : List Char) (clock : Ymd) (hv : validPyDate clock)
    (f t : List Char) (h : parseDateFilter e clock = .ok (f, t)) :
    (f ≠ [] ∧ t ≠ []) ∧
    ((matchRange (pyStrip (pyLower e))).isSome = true ∨
     (matchKeyDate "since".data (pyStrip (pyLower e))).isSome = true ∨
     (matchKeyDate "before".data (pyStrip (pyLower e))).isSome = true ∨
     dateLeStr f t = true) := by
  obtain ⟨hvc, hy1, hy9⟩ := hv
  have hm1 := hvc.1
  have hm12 := hvc.2.1
  have hd1 := hvc.2.2.1
  rw [parseDateFilter] at h
  set df := pyStrip (pyLower e) with hdfdef
  cases hkw : kwBranch df clock with
  | some r =>
    rw [hkw] at h
    dsimp only at h
    subst h
    rw [kwBranch] at hkw
    split_ifs at hkw
    -- today
    · rw [Option.some.injEq] at hkw
      cases hkw
      have hg := fmtPairGood clock clock hvc hy1 hy9 hvc hy1 hy9 le_rfl
      exact ⟨hg.1, Or.inr (Or.inr (Or.inr hg.2))⟩
    -- yesterday
    · rw [Option.some.injEq] at hkw
      cases hs : pySubDays clock 1 with
      | error er => rw [hs, exceptBindErr] at hkw; cases hkw
      | ok y =>
        rw [hs, exceptBindOk] at hkw
        cases hkw
        obtain ⟨rfl, hb1, hb2⟩ := pySubDays_ok clock 1 y hs
        have hyr := ofOrd_year_range _ hb1 hb2
        have hg := fmtPairGood _ _ (ofOrd_valid _) hyr.1 hyr.2 (ofOrd_valid _)
          hyr.1 hyr.2 le_rfl
        exact ⟨hg.1, Or.inr (Or.inr (Or.inr hg.2))⟩
    -- this week
    · rw [Option.some.injEq] at hkw
      cases hs : pySubDays clock (pyWeekday clock) with
      | error er => rw [hs, exceptBindErr] at hkw; cases hkw
      | ok y =>
        rw [hs, exceptBindOk] at hkw
        cases hkw
        have hwd : 0 ≤ pyWeekday clock := by unfold pyWeekday; omega
        have hg := subPairGood clock hvc hy1 hy9 _ hwd y hs
        exact ⟨hg.1, Or.inr (Or.inr (Or.inr hg.2))⟩
    -- last week
    · rw [Option.some.injEq] at hkw
      cases hs : pySubDays clock (pyWeekday clock + 1) with
      | error er => rw [hs, exceptBindErr] at hkw; cases hkw
      | ok y =>
        rw [hs, exceptBindOk] at hkw
        cases hs2 : pySubDays y 6 with
        | error er => rw [hs2, exceptBindErr] at hkw; cases hkw
        | ok y2 =>
          rw [hs2, exceptBindOk] at hkw
          cases hkw
          obtain ⟨rfl, ha1, ha2⟩ := pySubDays_ok clock _ y hs
          obtain ⟨rfl, hb1, hb2⟩ := pySubDays_ok _ 6 y2 hs2
          have hyr1 := ofOrd_year_range _ ha1 ha2
          have hyr2 := ofOrd_year_range _ hb1 hb2
          have hg := fmtPairGood _ _ (ofOrd_valid _) hyr2.1 hyr2.2 (ofOrd_valid _)
            hyr1.1 hyr1.2 (by rw [toOrd_ofOrd, toOrd_ofOrd]; omega)
          exact ⟨hg.1, Or.inr (Or.inr (Or.inr hg.2))⟩
    -- this month
    · rw [Option.some.injEq] at hkw
      cases hs : pyReplace clock none none (some 1) with
      | error er => rw [hs, exceptBindErr] at hkw; cases hkw
      | ok y =>
        rw [hs, exceptBindOk] at hkw
        cases hkw
        obtain ⟨rfl, hvy, hb1, hb2⟩ := pyReplace_ok clock none none (some 1) y hs
        have hg := fmtPairGood _ clock hvy hb1 hb2 hvc hy1 hy9
          (toOrd_day_le clock.year clock.month 1 clock.day hd1)
        exact ⟨hg.1, Or.inr (Or.inr (Or.inr hg.2))⟩
    -- last month
    · rw [Option.some.injEq] at hkw
      cases hs : pyReplace clock none none (some 1) with
      | error er => rw [hs, exceptBindErr] at hkw; cases hkw
      | ok y =>
        rw [hs, exceptBindOk] at hkw
        cases hs2 : pySubDays y 1 with
        | error er => rw [hs2, exceptBindErr] at hkw; cases hkw
        | ok y2 =>
          rw [hs2, exceptBindOk] at hkw
          cases hs3 : pyReplace y2 none none (some 1) with
          | error er => rw [hs3, exceptBindErr] at hkw; cases hkw
          | ok y3 =>
            rw [hs3, exceptBindOk] at hkw
            cases hkw
            obtain ⟨rfl, hb1, hb2⟩ := pySubDays_ok y 1 y2 hs2
            obtain ⟨rfl, hvy3, hc1, hc2⟩ := pyReplace_ok _ none none (some 1) y3 hs3
            have hvy2 := ofOrd_valid (toOrd y - 1)
            have hyr2 := ofOrd_year_range _ hb1 hb2
            have hg := fmtPairGood _ _ hvy3 hc1 hc2 hvy2 hyr2.1 hyr2.2
              (toOrd_day_le _ _ 1 _ hvy2.2.2.1)
            exact ⟨hg.1, Or.inr (Or.inr (Or.inr hg.2))⟩
    -- this year
    · rw [Option.some.injEq] at hkw
      cases hs : pyReplace clock none (some 1) (some 1) with
      | error er => rw [hs, exceptBindErr] at hkw; cases hkw
      | ok y =>
        rw [hs, exceptBindOk] at hkw
        cases hkw
        obtain ⟨rfl, hvy, hb1, hb2⟩ := pyReplace_ok clock none (some 1) (some 1) y hs
        have hg := fmtPairGood _ clock hvy hb1 hb2 hvc hy1 hy9
          (toOrd_jan1_le clock.year clock.month clock.day hm1 hm12 hd1)
        exact ⟨hg.1, Or.inr (Or.inr (Or.inr hg.2))⟩
    -- last year
    · rw [Option.some.injEq] at hkw
      cases hs : pyReplace clock (some (clock.year - 1)) (some 1) (some 1) with
      | error er => rw [hs, exceptBindErr] at hkw; cases hkw
      | ok y =>
        rw [hs, exceptBindOk] at hkw
        cases hs2 : pyReplace clock (some (clock.year - 1)) (some 12) (some 31) with
        | error er => rw [hs2, exceptBindErr] at hkw; cases hkw
        | ok y2 =>
          rw [hs2, exceptBindOk] at hkw
          cases hkw
          obtain ⟨rfl, hvy, hb1, hb2⟩ := pyReplace_ok clock _ _ _ y hs
          obtain ⟨rfl, hvy2, hc1, hc2⟩ := pyReplace_ok clock _ _ _ y2 hs2
          have hg := fmtPairGood _ _ hvy hb1 hb2 hvy2 hc1 hc2
            (toOrd_jan1_le (clock.year - 1) 12 31 (by omega) (by omega) (by omega))
          exact ⟨hg.1, Or.inr (Or.inr (Or.inr hg.2))⟩
  | none =>
    rw [hkw] at h
    dsimp only at h
    cases hre : reBranch df clock with
    | some r =>
      rw [hre] at h
      dsimp only at h
      subst h
      rw [reBranch] at hre
      cases hD : matchLastN " day".data df with
      | some n =>
        rw [hD] at hre
        dsimp only at hre
        rw [Option.some.injEq] at hre
        cases hs : pySubDays clock (n : Int) with
        | error er => rw [hs, exceptBindErr] at hre; cases hre
        | ok y =>
          rw [hs, exceptBindOk] at hre
          cases hre
          have hg := subPairGood clock hvc hy1 hy9 _ (by omega) y hs
          exact ⟨hg.1, Or.inr (Or.inr (Or.inr hg.2))⟩
      | none =>
      rw [hD] at hre
      dsimp only at hre
      cases hW : matchLastN " week".data df with
      | some n =>
        rw [hW] at hre
        dsimp only at hre
        rw [Option.some.injEq] at hre
        cases hs : pySubDays clock (7 * (n : Int)) with
        | error er => rw [hs, exceptBindErr] at hre; cases hre
        | ok y =>
          rw [hs, exceptBindOk] at hre
          cases hre
          have hg := subPairGood clock hvc hy1 hy9 _ (by omega) y hs
          exact ⟨hg.1, Or.inr (Or.inr (Or.inr hg.2))⟩
      | none =>
      rw [hW] at hre
      dsimp only at hre
      cases hM : matchLastN " month".data df with
      | some n =>
        rw [hM] at hre
        dsimp only at hre
        rw [Option.some.injEq] at hre
        cases hs : pyReplace clock (some (monthAdjust clock.year (clock.month - (n : Int))).1)
            (some (monthAdjust clock.year (clock.month - (n : Int))).2) none with
        | error er => rw [hs, exceptBindErr] at hre; cases hre
        | ok y =>
          rw [hs, exceptBindOk] at hre
          cases hre
          obtain ⟨rfl, hvy, hb1, hb2⟩ := pyReplace_ok clock _ _ none y hs
          have hma := monthAdjust_spec clock.year (clock.month - (n : Int)) (by omega)
          have hg := fmtPairGood _ clock hvy hb1 hb2 hvc hy1 hy9
            (by
              dsimp only [Option.getD]
              exact toOrd_ym_mono _ _ clock.year clock.month clock.day
                hma.1 hma.2.1 hm1 hm12 hd1 (by omega))
          exact ⟨hg.1, Or.inr (Or.inr (Or.inr hg.2))⟩
      | none =>
      rw [hM] at hre
      dsimp only at hre
      cases hR : matchRange df with
      | some ab =>
        obtain ⟨a, b⟩ := ab
        obtain ⟨⟨hane, _⟩, ⟨hbne, _⟩⟩ := matchRange_caps df a b hR
        rw [hR] at hre
        dsimp only at hre
        rw [Option.some.injEq] at hre
        cases hre
        exact ⟨⟨hane, hbne⟩, Or.inl rfl⟩
      | none =>
      rw [hR] at hre
      dsimp only at hre
      cases hY : matchYMD df with
      | some p =>
        obtain ⟨hne, hsome⟩ := matchYMD_props df p hY
        rw [hY] at hre
        dsimp only at hre
        rw [Option.some.injEq] at hre
        cases hre
        exact ⟨⟨hne, hne⟩, Or.inr (Or.inr (Or.inr (dateLeStr_refl_of_isSome _ hsome)))⟩
      | none =>
      rw [hY] at hre
      dsimp only at hre
      cases hS : matchKeyDate "since".data df with
      | some p =>
        obtain ⟨hne, _⟩ := matchKeyDate_cap "since".data df p hS
        rw [hS] at hre
        dsimp only at hre
        rw [Option.some.injEq] at hre
        cases hre
        exact ⟨⟨hne, fmtYmd_ne_nil clock⟩, Or.inr (Or.inl rfl)⟩
      | none =>
      rw [hS] at hre
      dsimp only at hre
      cases hB : matchKeyDate "before".data df with
      | some p =>
        obtain ⟨hne, _⟩ := matchKeyDate_cap "before".data df p hB
        rw [hB] at hre
        dsimp only at hre
        rw [Option.some.injEq] at hre
        cases hs : pySubDays clock 365 with
        | error er => rw [hs, exceptBindErr] at hre; cases hre
        | ok y =>
          rw [hs, exceptBindOk] at hre
          cases hre
          exact ⟨⟨fmtYmd_ne_nil y, hne⟩, Or.inr (Or.inr (Or.inl rfl))⟩
      | none =>
      rw [hB] at hre
      dsimp only at hre
      cases hre
    | none =>
      rw [hre] at h
      dsimp only at h
      cases hs : pySubDays clock 30 with
      | error er => rw [hs, exceptBindErr] at h; cases h
      | ok y =>
        rw [hs, exceptBindOk] at h
        cases h
        have hg := subPairGood clock hvc hy1 hy9 30 (by omega) y hs
        exact ⟨hg.1, Or.inr (Or.inr (Or.inr hg.2))⟩

/-- C3 counterexample: the explicit-range form passes both captured dates
through verbatim with no ordering check, so `"2025-12-31 to 2025-01-01"`
returns an interval whose from bound is after its to bound, violating the
claimed Date Interval invariant. -/
theorem c3_interval_counterexample :
    parseDateFilter ("2025-12-31 to 2025-01-01").data ⟨2025, 6, 15⟩ =
      .ok (("2025-12-31").data, ("2025-01-01").data) ∧
    dateLeStr ("2025-12-31").data ("2025-01-01").data = false := by
  decide

/-- C3 (amended): for every expression and every valid clock reading, a
successfully returned interval has `from <= to` unless the expression matched
one of the verbatim passthrough forms — the explicit range
`YYYY-MM-DD to YYYY-MM-DD`, `since YYYY-MM-DD`, or `before YYYY-MM-DD` —
which copy caller-supplied dates into the bounds without any ordering check. -/
theorem c3_interval_invariant (e : List Char) (clock : Ymd) (hv : validPyDate clock)
    (f t : List Char) (h : parseDateFilter e clock = .ok (f, t)) :
    (matchRange (pyStrip (pyLower e))).isSome = true ∨
    (matchKeyDate ("since").data (pyStrip (pyLower e))).isSome = true ∨
    (matchKeyDate ("before").data (pyStrip (pyLower e))).isSome = true ∨
    dateLeStr f t = true :=
  (parse_ok_master e clock hv f t h).2

theorem c3_interval_invariant_witness :
    validPyDate (⟨2025, 6, 15⟩ : Ymd) ∧
    parseDateFilter ("xyz").data ⟨2025, 6, 15⟩ =
      .ok (("2025-05-16").data, ("2025-06-15").data) ∧
    ((matchRange (pyStrip (pyLower ("xyz").data))).isSome = true ∨
     (matchKeyDate ("since").data (pyStrip (pyLower ("xyz").data))).isSome = true ∨
     (matchKeyDate ("before").data (pyStrip (pyLower ("xyz").data))).isSome = true ∨
     dateLeStr ("2025-05-16").data ("2025-06-15").data = true) :=
  ⟨by decide, by decide,
   c3_interval_invariant ("xyz").data ⟨2025, 6, 15⟩ (by decide) _ _ (by decide)⟩

/-- C9: whenever `_parse_date_filter` returns at all, both bounds of the
interval are present (non-empty strings); consequently `list_work_items`
without a raw query never defers the date constraint to client-side
filtering — every successful trace has `clientFilter = none`, so the
`client_side_date_filter` branch for a missing bound is unreachable. -/
theorem c9_both_bounds (e : List Char) (clock : Ymd) (hv : validPyDate clock)
    (f t : List Char) (h : parseDateFilter e clock = .ok (f, t)) :
    (f ≠ [] ∧ t ≠ []) ∧
    ∀ (dateParse : List Char → Option Int) (project : List Char)
      (wit st : Option (List Char)) (ids : List Int)
      (fetch : List Int → List Value) (tr : Trace),
      listWorkItems dateParse none project wit st (some e) clock ids fetch = .ok tr →
      tr.clientFilter = none := by
  obtain ⟨⟨hf, ht⟩, _⟩ := parse_ok_master e clock hv f t h
  refine ⟨⟨hf, ht⟩, ?_⟩
  intro dateParse project wit st ids fetch tr h2
  have hplan : ∃ C, datePlan (some e) none clock = .ok (C, none) := by
    rw [datePlan]
    by_cases he : truthy (some e) = true
    · rw [if_pos ⟨he, by decide⟩]
      dsimp only [Option.getD]
      rw [h, exceptBindOk]
      dsimp only
      rw [if_pos ⟨by simp [isEmpty_false f hf], by simp [isEmpty_false t ht]⟩]
      exact ⟨_, rfl⟩
    · rw [if_neg (fun hc => he hc.1)]
      rw [if_neg (fun hc =>
        (by decide : ¬ truthy (none : Option (List Char)) = true) hc.2)]
      exact ⟨[], rfl⟩
  obtain ⟨C, hplan⟩ := hplan
  rw [listWorkItems] at h2
  by_cases hp : project.isEmpty = true
  · rw [if_pos hp] at h2
    cases h2
  · rw [if_neg hp] at h2
    rw [hplan, exceptBindOk] at h2
    rw [if_neg (by decide : ¬ truthy (none : Option (List Char)) = true)] at h2
    by_cases hids : ids.isEmpty = true
    · rw [if_pos hids] at h2
      cases h2
      rfl
    · rw [if_neg hids] at h2
      dsimp only at h2
      cases h2
      rfl

theorem c9_both_bounds_witness :
    validPyDate (⟨2025, 6, 15⟩ : Ymd) ∧
    parseDateFilter ("today").data ⟨2025, 6, 15⟩ =
      .ok (("2025-06-15").data, ("2025-06-15").data) ∧
    ((("2025-06-15").data ≠ [] ∧ ("2025-06-15").data ≠ []) ∧
     ∀ (dateParse : List Char → Option Int) (project : List Char)
       (wit st : Option (List Char)) (ids : List Int)
       (fetch : List Int → List Value) (tr : Trace),
       listWorkItems dateParse none project wit st (some ("today").data)
           ⟨2025, 6, 15⟩ ids fetch = .ok tr →
       tr.clientFilter = none) :=
  ⟨by decide, by decide,
   c9_both_bounds ("today").data ⟨2025, 6, 15⟩ (by decide) _ _ (by decide)⟩

end AzdoTools
